import Mathlib

/-!
Verification development for the reviewed fragment of
`src/services/orchest-api/app/app/utils.py`: the terminal-state transition
guard (`update_status_db`) and the layered settings engine
(`OrchestSettings`).

Python dictionaries are embedded as association lists with first-match
lookup and in-place replacement on insert, which reproduces CPython's
insertion-ordered dict semantics.  Python exceptions are embedded as the
error side of `Except`.
-/

set_option maxHeartbeats 1000000

deriving instance DecidableEq for Except

/-! ## Association-list dictionaries (embedding of Python `dict`) -/

/-- First-match lookup, i.e. Python `d[k]` / `d.get(k)` on a dict whose
entries are listed in insertion order. -/
def alookup {α : Type} (d : List (String × α)) (k : String) : Option α :=
  match d with
  | [] => none
  | (k1, v) :: t => if k1 = k then some v else alookup t k

/-- Python `d[k] = v`: replace the value in place if the key is present
(keeping its position), otherwise append the new entry at the end. -/
def ainsert {α : Type} (d : List (String × α)) (k : String) (v : α) :
    List (String × α) :=
  match d with
  | [] => [(k, v)]
  | (k1, v1) :: t => if k1 = k then (k1, v) :: t else (k1, v1) :: ainsert t k v

/-- Python `d.update(e)`: fold `e`'s entries into `d` in order. -/
def aupdate {α : Type} (d e : List (String × α)) : List (String × α) :=
  match e with
  | [] => d
  | (k, v) :: t => aupdate (ainsert d k v) t

/-- The keys of a dict, in insertion order. -/
def akeys {α : Type} (d : List (String × α)) : List String :=
  d.map Prod.fst

/-- First-defined choice over two optional values. -/
def ofirst {α : Type} (a b : Option α) : Option α :=
  match a with
  | some v => some v
  | none => b

/-! ## Embedded Python exceptions -/

/-- The Python exceptions reachable in the embedded fragment. -/
inductive PyError where
  | typeError : String → PyError
  | valueError : String → PyError
  | keyError : String → PyError
  | attributeError : String → PyError
deriving DecidableEq

/-! ## Terminal-state transition guard (`update_status_db`, utils.py 41-92) -/

/-- A database column value in the status tables: either a plain string or
a `datetime` produced by `datetime.fromisoformat`. -/
inductive ColVal where
  | str : String → ColVal
  | time : String → ColVal
deriving DecidableEq

/-- `datetime.fromisoformat`: modelled as the injection of the ISO string
into the `datetime` constructor.  The claims under study never depend on
the arithmetic of the parsed value, only on whether parsing happened, so
the parse is modelled as total on the strings actually supplied. -/
def fromisoformat (s : String) : ColVal := ColVal.time s

/-- A database row: a mapping from column name to value.  A missing column
stands for SQL NULL. -/
abbrev Row := List (String × ColVal)

/-- `model.status.in_(["PENDING", "STARTED"])` evaluated on one row. -/
def nonTerminal (row : Row) : Bool :=
  match alookup row "status" with
  | some v =>
      decide (v = ColVal.str "PENDING") || decide (v = ColVal.str "STARTED")
  | none => false

/-- `model.query.filter_by(**filter_by)` evaluated on one row: every given
column must equal the given string. -/
def rowMatches (filter_by : List (String × String)) (row : Row) : Bool :=
  filter_by.all (fun kv => decide (alookup row kv.1 = some (ColVal.str kv.2)))

/-- The full WHERE predicate of the guarded UPDATE: caller filter plus the
non-terminal status guard. -/
def matchesGuard (filter_by : List (String × String)) (row : Row) : Bool :=
  rowMatches filter_by row && nonTerminal row

/-- Python `d[k]` on a `Dict[str, str]`: `KeyError` when absent. -/
def getStr (d : List (String × String)) (k : String) : Except PyError String :=
  match alookup d k with
  | some v => .ok v
  | none => .error (.keyError k)

/-- Lines 63-66 of utils.py: turn the caller's string dict into the row to
SET, parsing `started_time` when the new status is `STARTED` and
`finished_time` when it is `SUCCESS` or `FAILURE` (reading the dict raises
`KeyError` when the key is absent); any other status leaves every value as
its plain string. -/
def parsedData (status_update : List (String × String)) (s : String) :
    Except PyError Row :=
  let data0 : Row := status_update.map (fun kv => (kv.1, ColVal.str kv.2))
  if s = "STARTED" then
    match getStr status_update "started_time" with
    | .error e => .error e
    | .ok t => .ok (ainsert data0 "started_time" (fromisoformat t))
  else if s = "SUCCESS" ∨ s = "FAILURE" then
    match getStr status_update "finished_time" with
    | .error e => .error e
    | .ok t => .ok (ainsert data0 "finished_time" (fromisoformat t))
  else .ok data0

/-- Embedding of `update_status_db` (utils.py lines 41-92).  `status_update`
is the caller's `Dict[str, str]`; the table is the set of rows of the
entity's model.  Mirrors the source exactly: the timestamp strings are
parsed before the guarded UPDATE runs, the UPDATE touches only rows
matching both the caller filter and the non-terminal guard, and the
returned boolean is `bool(rowcount)`. -/
def update_status_db (status_update : List (String × String))
    (filter_by : List (String × String)) (table : List Row) :
    Except PyError (Bool × List Row) :=
  match getStr status_update "status" with
  | .error e => .error e
  | .ok s =>
    match parsedData status_update s with
    | .error e => .error e
    | .ok data =>
      let n := (table.filter (fun r => matchesGuard filter_by r)).length
      let table2 :=
        table.map (fun r => if matchesGuard filter_by r then aupdate r data else r)
      .ok (decide (0 < n), table2)

/-! ## Settings engine value model -/

/-- The Python runtime values inhabiting the settings maps (the registry
declares exactly the types `int`, `bool`, `str`). -/
inductive PyVal where
  | int : Int → PyVal
  | bool : Bool → PyVal
  | str : String → PyVal
deriving DecidableEq

/-- The declared types of the registry (`val["type"]`). -/
inductive PyTag where
  | int
  | bool
  | str
deriving DecidableEq

/-- Python `type(x)` restricted to the embedded value universe.  Note that
CPython's `type(True) is int` is `False`, so the tags are disjoint. -/
def typeTag : PyVal → PyTag
  | .int _ => .int
  | .bool _ => .bool
  | .str _ => .str

def tagName : PyTag → String
  | .int => "int"
  | .bool => "bool"
  | .str => "str"

/-- Numeric view used by Python comparisons: `bool` coerces to 0/1,
strings are not numbers. -/
def pyNum : PyVal → Option Int
  | .int n => some n
  | .bool b => some (if b then 1 else 0)
  | .str _ => none

/-- Message of the `TypeError` raised by an `int`-vs-`str` comparison
(paraphrased without punctuation that the source embeds in quotes). -/
def cmpErrMsg : String := "unorderable operand types int and str"

/-- Python `a < b` on the embedded values: numeric comparison when both
sides are numeric, lexicographic on two strings, `TypeError` otherwise. -/
def pyLt (a b : PyVal) : Except String Bool :=
  match a, b with
  | .str s1, .str s2 => .ok (decide (s1 < s2))
  | _, _ =>
    match pyNum a, pyNum b with
    | some x, some y => .ok (decide (x < y))
    | _, _ => .error cmpErrMsg

/-- Python `a <= b`, same conventions as `pyLt`. -/
def pyLe (a b : PyVal) : Except String Bool :=
  match a, b with
  | .str s1, .str s2 => .ok (decide (s1 ≤ s2))
  | _, _ =>
    match pyNum a, pyNum b with
    | some x, some y => .ok (decide (x ≤ y))
    | _, _ => .error cmpErrMsg

/-- Python `a == b` on the embedded values: never raises; numbers compare
across `int`/`bool`, strings compare to strings, mixed kinds are unequal. -/
def pyEq (a b : PyVal) : Bool :=
  match pyNum a, pyNum b with
  | some x, some y => decide (x = y)
  | _, _ =>
    match a, b with
    | .str s1, .str s2 => decide (s1 = s2)
    | _, _ => false

/-- The chained comparison `lambda x: 0 < x <= 25`, with Python's
short-circuiting: `x <= 25` is only evaluated when `0 < x` holds. -/
def cond_range_1_25 (x : PyVal) : Except String Bool :=
  match pyLt (PyVal.int 0) x with
  | .error m => .error m
  | .ok b => if b then pyLe x (PyVal.int 25) else .ok false

/-! ## Settings registry (`OrchestSettings._config_values`) -/

/-- One entry of `_config_values`.  `conditionMsg` is only read on the
predicate-failure path, so entries whose source dict omits `condition-msg`
carry the empty string here. -/
structure CVSpec where
  default : PyVal
  tag : PyTag
  requiresRestart : Bool
  condition : Option (PyVal → Except String Bool)
  conditionMsg : String

/-- The source computes `str(uuid.uuid4())` once at import time; the claims
never depend on the actual digits, so a fixed placeholder stands for the
generated value. -/
def telemetryUuidDefault : String := "00000000-0000-4000-8000-000000000000"

/-- `OrchestSettings._config_values`, in source (insertion) order. -/
def configValues : List (String × CVSpec) :=
  [ ("MAX_JOB_RUNS_PARALLELISM",
      { default := .int 1, tag := .int, requiresRestart := true,
        condition := some cond_range_1_25,
        conditionMsg := "within the range [1, 25]" }),
    ("MAX_INTERACTIVE_RUNS_PARALLELISM",
      { default := .int 1, tag := .int, requiresRestart := true,
        condition := some cond_range_1_25,
        conditionMsg := "within the range [1, 25]" }),
    ("AUTH_ENABLED",
      { default := .bool false, tag := .bool, requiresRestart := true,
        condition := none, conditionMsg := "" }),
    ("TELEMETRY_DISABLED",
      { default := .bool false, tag := .bool, requiresRestart := true,
        condition := none, conditionMsg := "" }),
    ("TELEMETRY_UUID",
      { default := .str telemetryUuidDefault, tag := .str,
        requiresRestart := true, condition := none, conditionMsg := "" }),
    ("INTERCOM_USER_EMAIL",
      { default := .str "johndoe@example.org", tag := .str,
        requiresRestart := true, condition := none, conditionMsg := "" }) ]

/-- The registry key set, in registry iteration order. -/
def registryKeys : List String := configValues.map Prod.fst

/-- `OrchestSettings._cloud_unmodifiable_config_opts`. -/
def cloudUnmodifiableConfigOpts : List String :=
  ["TELEMETRY_UUID", "TELEMETRY_DISABLED", "AUTH_ENABLED", "INTERCOM_USER_EMAIL"]

/-- The default layer `{k: val["default"] for k, val in _config_values}`. -/
def defaultsDict : List (String × PyVal) :=
  configValues.map (fun kv => (kv.1, kv.2.default))

/-- A settings dict (string keys to embedded Python values). -/
abbrev SDict := List (String × PyVal)

def typeErrMsg (k : String) (expected actual : PyTag) : String :=
  k ++ " has to be a \"" ++ tagName expected ++ "\" but \"" ++
    tagName actual ++ "\" was given."

def valueErrMsg (k msg : String) : String :=
  k ++ " has to be " ++ msg ++ "."

/-! ## Validator (`OrchestSettings._validate_dict`, utils.py 425-481) -/

/-- The body of the `for k, val in self._config_values.items()` loop for a
single registry entry.  Faithful to the source, including the detail that
the condition is evaluated on `given_val`, the value fetched from the dict
before any type-migration replaced it. -/
def validateKey (cloud migrate : Bool) (k : String) (val : CVSpec)
    (d : SDict) : Except PyError SDict :=
  match alookup d k with
  | none => .ok d
  | some given_val =>
    let notAllowed := cloud && decide (k ∈ cloudUnmodifiableConfigOpts)
    let step1 : Except PyError SDict :=
      if typeTag given_val ≠ val.tag then
        if !migrate || notAllowed then
          .error (.typeError (typeErrMsg k val.tag (typeTag given_val)))
        else .ok (ainsert d k val.default)
      else .ok d
    match step1 with
    | .error e => .error e
    | .ok d1 =>
      match val.condition with
      | none => .ok d1
      | some c =>
        match c given_val with
        | .error m => .error (.typeError m)
        | .ok b =>
          if b then .ok d1
          else if !migrate || notAllowed then
            .error (.valueError (valueErrMsg k val.conditionMsg))
          else .ok (ainsert d1 k val.default)

/-- Loop of `_validate_dict` over an explicit list of registry entries. -/
def validateList (cloud migrate : Bool) (l : List (String × CVSpec))
    (d : SDict) : Except PyError SDict :=
  match l with
  | [] => .ok d
  | kv :: t =>
    match validateKey cloud migrate kv.1 kv.2 d with
    | .error e => .error e
    | .ok d1 => validateList cloud migrate t d1

/-- `OrchestSettings._validate_dict(d, migrate)`: validates (and, when
migrating, heals) the candidate against the whole registry; the possibly
mutated dict is returned. -/
def validateDict (cloud : Bool) (d : SDict) (migrate : Bool) :
    Except PyError SDict :=
  validateList cloud migrate configValues d

/-! ## Layered resolver (`OrchestSettings.__init__` and lookups) -/

/-- The three `ChainMap` layers: `maps[0]` (cloud-unmodifiable snapshot),
`maps[1]` (current/stored config), `maps[2]` (registry defaults). -/
structure OrchestState where
  unmodifiable : SDict
  current : SDict
  defaults : SDict
deriving DecidableEq

/-- One pass of the loop building `unmodifiable_config` (utils.py 504-511)
over an explicit list of option keys: keys missing from the stored config
fall back silently. -/
def unmodFoldList (cur : SDict) (opts : List String) (m : SDict) : SDict :=
  match opts with
  | [] => m
  | k :: t =>
    unmodFoldList cur t
      (match alookup cur k with
       | some v => ainsert m k v
       | none => m)

/-- The loop building `unmodifiable_config` out of the migrated stored
config (utils.py 504-511). -/
def unmodFold (cur : SDict) : SDict :=
  unmodFoldList cur cloudUnmodifiableConfigOpts []

/-- Message of the `AttributeError` raised while formatting the intended
`CorruptedFileError`: the class has no `_path` attribute, so evaluating
`self._path` inside the f-string fails first. -/
def attrErrMsg : String :=
  "OrchestSettings object has no attribute _path"

/-- Embedding of `OrchestSettings.__init__` / `_get_current_configs` given
the settings fetched from the database.  The `except (TypeError, ValueError)`
branch re-raises; since building the replacement message reads the
nonexistent `self._path`, that branch actually raises `AttributeError`
(the only errors `_validate_dict` produces are `TypeError`/`ValueError`,
so the catch is total here). -/
def settingsInit (cloud : Bool) (dbSettings : SDict) :
    Except PyError OrchestState :=
  match validateDict cloud dbSettings true with
  | .error _ => .error (.attributeError attrErrMsg)
  | .ok current =>
    .ok { unmodifiable := if cloud then unmodFold current else []
          current := current
          defaults := defaultsDict }

/-- `ChainMap.__getitem__`: first hit across
unmodifiable, current, defaults; `none` stands for `KeyError`. -/
def settingsGet (st : OrchestState) (k : String) : Option PyVal :=
  ofirst (alookup st.unmodifiable k)
    (ofirst (alookup st.current k) (alookup st.defaults k))

/-- `OrchestSettings.as_dict`: `dict(ChainMap(u, c, d))` merges the maps
from lowest to highest precedence. -/
def asDict (st : OrchestState) : SDict :=
  aupdate (aupdate st.defaults st.current) st.unmodifiable

/-- `OrchestSettings.update(d)`: validate without migration, then merge
into `maps[1]`.  On a validation error the exception propagates and the
state is untouched. -/
def updateSettings (cloud : Bool) (st : OrchestState) (d : SDict) :
    Except PyError Unit × OrchestState :=
  match validateDict cloud d false with
  | .error e => (.error e, st)
  | .ok d2 => (.ok (), { st with current := aupdate st.current d2 })

/-- `OrchestSettings.set(d)`: validate without migration, then replace
`maps[1]` wholesale. -/
def setSettings (cloud : Bool) (st : OrchestState) (d : SDict) :
    Except PyError Unit × OrchestState :=
  match validateDict cloud d false with
  | .error e => (.error e, st)
  | .ok d2 => (.ok (), { st with current := d2 })

/-! ## Persistence (`OrchestSettings.save`, utils.py 310-346) -/

/-- The upsert-then-prune transaction of `save`: every effective pair is
upserted into the store (`ON CONFLICT DO UPDATE`), then rows whose name is
not among the effective keys are deleted. -/
def savePersist (dbStore : SDict) (eff : SDict) : SDict :=
  (aupdate dbStore eff).filter (fun kv => decide (kv.1 ∈ akeys eff))

/-- `OrchestSettings._changes_require_restart` (utils.py 396-423): walk the
registry in order, skip non-restart keys and (in cloud mode) the
unmodifiable keys, and report keys the new map defines with a value that
differs (Python `!=`) from the live flask config value.  An absent live
value is Python `None`, which every embedded value differs from. -/
def crrStep (cloud : Bool) (flaskConfig neu : SDict) (res : List String)
    (kv : String × CVSpec) : List String :=
  if !kv.2.requiresRestart then res
  else if cloud && decide (kv.1 ∈ cloudUnmodifiableConfigOpts) then res
  else
    match alookup neu kv.1 with
    | none => res
    | some nv =>
      match alookup flaskConfig kv.1 with
      | none => res ++ [kv.1]
      | some ov => if pyEq nv ov then res else res ++ [kv.1]

/-- The `for k, val in self._config_values.items()` loop of
`_changes_require_restart` over an explicit list of registry entries. -/
def crrList (cloud : Bool) (flaskConfig neu : SDict)
    (l : List (String × CVSpec)) (res : List String) : List String :=
  match l with
  | [] => res
  | kv :: t => crrList cloud flaskConfig neu t (crrStep cloud flaskConfig neu res kv)

def changesRequireRestart (cloud : Bool) (flaskConfig : SDict)
    (neu : SDict) : List String :=
  crrList cloud flaskConfig neu configValues []

/-- `OrchestSettings.save(flask_app)`: flatten, persist (upsert + prune),
and, when a flask app is given, return the restart-impact diff. -/
def saveSettings (cloud : Bool) (st : OrchestState) (dbStore : SDict)
    (flaskConfig : Option SDict) : SDict × Option (List String) :=
  let eff := asDict st
  let db2 := savePersist dbStore eff
  match flaskConfig with
  | none => (db2, none)
  | some fc => (db2, some (changesRequireRestart cloud fc eff))

/-- Modelled from the spec: the Restart-Impact Analyzer of section 4.3,
stated as a filter over the registry in iteration order — the keys with
`requires_restart`, not operator-locked under restricted mode, defined in
the new map, and whose new value differs from the live runtime value.
Used only to compare the source's `_changes_require_restart` against the
spec's description.  `restartPred` is the per-key membership test of that
filter. -/
def restartPred (cloud : Bool) (live neu : SDict)
    (kv : String × CVSpec) : Bool :=
  kv.2.requiresRestart &&
  !(cloud && decide (kv.1 ∈ cloudUnmodifiableConfigOpts)) &&
  (match alookup neu kv.1 with
   | none => false
   | some nv =>
     match alookup live kv.1 with
     | none => true
     | some ov => !pyEq nv ov)

def specRestartDiff (cloud : Bool) (live neu : SDict) : List String :=
  (configValues.filter (restartPred cloud live neu)).map Prod.fst

/-! ## Dictionary lemmas -/

theorem alookup_ainsert_self {α : Type} (d : List (String × α)) (k : String)
    (v : α) : alookup (ainsert d k v) k = some v := by
  induction d with
  | nil => simp [ainsert, alookup]
  | cons kv t ih =>
    obtain ⟨k1, v1⟩ := kv
    by_cases h : k1 = k
    · simp [ainsert, alookup, h]
    · simp [ainsert, alookup, h, ih]

theorem alookup_ainsert_ne {α : Type} (d : List (String × α)) {k k2 : String}
    (v : α) (hne : k ≠ k2) : alookup (ainsert d k v) k2 = alookup d k2 := by
  induction d with
  | nil => simp [ainsert, alookup, hne]
  | cons kv t ih =>
    obtain ⟨k1, v1⟩ := kv
    by_cases h : k1 = k
    · subst h
      simp [ainsert, alookup, hne]
    · simp [ainsert, alookup, h, ih]

theorem alookup_none_iff {α : Type} (d : List (String × α)) (k : String) :
    alookup d k = none ↔ k ∉ akeys d := by
  induction d with
  | nil => simp [alookup, akeys]
  | cons kv t ih =>
    obtain ⟨k1, v1⟩ := kv
    by_cases h : k1 = k
    · subst h
      simp [alookup, akeys]
    · simp [alookup, akeys, h, ih, Ne.symm h]

theorem alookup_isSome_of_mem {α : Type} (d : List (String × α)) (k : String)
    (h : k ∈ akeys d) : (alookup d k).isSome := by
  cases hv : alookup d k with
  | none => exact absurd ((alookup_none_iff d k).mp hv) (by simp [h])
  | some v => rfl

theorem akeys_ainsert_mem {α : Type} (d : List (String × α)) (k : String)
    (v : α) (h : k ∈ akeys d) : akeys (ainsert d k v) = akeys d := by
  induction d with
  | nil => simp [akeys] at h
  | cons kv t ih =>
    obtain ⟨k1, v1⟩ := kv
    have h2 : k = k1 ∨ k ∈ akeys t := by
      have h3 : k ∈ k1 :: akeys t := h
      exact List.mem_cons.mp h3
    by_cases hk : k1 = k
    · simp [ainsert, akeys, hk]
    · rcases h2 with h2 | h2
      · exact absurd h2.symm hk
      · simp [ainsert, akeys, hk]
        exact ih h2

theorem akeys_ainsert_not_mem {α : Type} (d : List (String × α)) (k : String)
    (v : α) (h : k ∉ akeys d) : akeys (ainsert d k v) = akeys d ++ [k] := by
  induction d with
  | nil => simp [ainsert, akeys]
  | cons kv t ih =>
    obtain ⟨k1, v1⟩ := kv
    have h2 : ¬(k = k1 ∨ k ∈ akeys t) := by
      intro hc
      exact h (List.mem_cons.mpr hc)
    push_neg at h2
    simp [ainsert, akeys, Ne.symm h2.1]
    exact ih h2.2

theorem nodup_akeys_ainsert {α : Type} (d : List (String × α)) (k : String)
    (v : α) (h : (akeys d).Nodup) : (akeys (ainsert d k v)).Nodup := by
  by_cases hm : k ∈ akeys d
  · rw [akeys_ainsert_mem d k v hm]; exact h
  · rw [akeys_ainsert_not_mem d k v hm]
    simp [List.nodup_append, h, hm]

theorem nodup_akeys_aupdate {α : Type} (d e : List (String × α))
    (h : (akeys d).Nodup) : (akeys (aupdate d e)).Nodup := by
  induction e generalizing d with
  | nil => exact h
  | cons kv t ih =>
    exact ih (ainsert d kv.1 kv.2) (nodup_akeys_ainsert d kv.1 kv.2 h)

theorem alookup_aupdate_not_mem {α : Type} (d e : List (String × α))
    (k : String) (h : k ∉ akeys e) : alookup (aupdate d e) k = alookup d k := by
  induction e generalizing d with
  | nil => rfl
  | cons kv t ih =>
    obtain ⟨k1, v1⟩ := kv
    have h2 : ¬(k = k1 ∨ k ∈ akeys t) := by
      intro hc
      exact h (List.mem_cons.mpr hc)
    push_neg at h2
    rw [show aupdate d ((k1, v1) :: t) = aupdate (ainsert d k1 v1) t from rfl]
    rw [ih (ainsert d k1 v1) h2.2]
    exact alookup_ainsert_ne d v1 (Ne.symm h2.1)

theorem alookup_aupdate_nodup {α : Type} (d e : List (String × α))
    (k : String) (h : (akeys e).Nodup) :
    alookup (aupdate d e) k = ofirst (alookup e k) (alookup d k) := by
  induction e generalizing d with
  | nil => rfl
  | cons kv t ih =>
    obtain ⟨k1, v1⟩ := kv
    have h2 : (k1 :: akeys t).Nodup := h
    have hk1 : k1 ∉ akeys t := (List.nodup_cons.mp h2).1
    have hnd : (akeys t).Nodup := (List.nodup_cons.mp h2).2
    rw [show aupdate d ((k1, v1) :: t) = aupdate (ainsert d k1 v1) t from rfl]
    rw [ih (ainsert d k1 v1) hnd]
    by_cases hk : k1 = k
    · subst hk
      rw [alookup_ainsert_self]
      have ht : alookup t k1 = none := (alookup_none_iff t k1).mpr hk1
      simp [alookup, ofirst, ht]
    · rw [alookup_ainsert_ne d v1 hk]
      simp [alookup, hk]

theorem alookup_filter_key {α : Type} (d : List (String × α))
    (q : String → Bool) (k : String) :
    alookup (d.filter (fun kv => q kv.1)) k =
      if q k then alookup d k else none := by
  induction d with
  | nil => simp [alookup]
  | cons kv t ih =>
    obtain ⟨k1, v1⟩ := kv
    by_cases hq : q k1
    · by_cases hk : k1 = k
      · subst hk
        simp [List.filter, alookup, hq]
      · simp [List.filter, alookup, hq, hk, ih]
    · by_cases hk : k1 = k
      · subst hk
        simp [List.filter_cons, hq, ih]
      · simp [List.filter_cons, alookup, hq, hk, ih]

theorem alookup_map_val {α β : Type} (d : List (String × α)) (f : α → β)
    (k : String) :
    alookup (d.map (fun kv => (kv.1, f kv.2))) k = (alookup d k).map f := by
  induction d with
  | nil => simp [alookup]
  | cons kv t ih =>
    obtain ⟨k1, v1⟩ := kv
    by_cases h : k1 = k <;> simp [alookup, h, ih]

theorem akeys_map_val {α β : Type} (d : List (String × α)) (f : α → β) :
    akeys (d.map (fun kv => (kv.1, f kv.2))) = akeys d := by
  induction d with
  | nil => rfl
  | cons kv t ih => simp only [List.map_cons, akeys] at *; simp [ih]

theorem list_map_id_of_eq {α : Type} (l : List α) (f : α → α)
    (h : ∀ x ∈ l, f x = x) : l.map f = l := by
  induction l with
  | nil => rfl
  | cons x t ih =>
    have hx : f x = x := h x (by simp)
    have ht : t.map f = t := ih (fun y hy => h y (by simp [hy]))
    simp [hx, ht]

/-! ## Transition-guard helper lemmas -/

theorem usdb_eval (su fb : List (String × String)) (table : List Row)
    (s : String) (data : Row) (hs : alookup su "status" = some s)
    (hd : parsedData su s = .ok data) :
    update_status_db su fb table =
      .ok (decide (0 < (table.filter (fun r => matchesGuard fb r)).length),
        table.map (fun r => if matchesGuard fb r then aupdate r data else r)) := by
  simp only [update_status_db, getStr, hs, hd]

theorem parsedData_ok (su : List (String × String)) (s : String)
    (hst : s = "STARTED" → (alookup su "started_time").isSome)
    (hfin : s = "SUCCESS" ∨ s = "FAILURE" → (alookup su "finished_time").isSome) :
    ∃ data, parsedData su s = .ok data := by
  unfold parsedData
  by_cases h1 : s = "STARTED"
  · cases ht : alookup su "started_time" with
    | none => rw [ht] at hst; exact absurd (hst h1) (by simp)
    | some t =>
      exact ⟨ainsert (su.map (fun kv => (kv.1, ColVal.str kv.2)))
        "started_time" (fromisoformat t), by simp [h1, getStr, ht]⟩
  · by_cases h2 : s = "SUCCESS" ∨ s = "FAILURE"
    · cases ht : alookup su "finished_time" with
      | none => rw [ht] at hfin; exact absurd (hfin h2) (by simp)
      | some t =>
        exact ⟨ainsert (su.map (fun kv => (kv.1, ColVal.str kv.2)))
          "finished_time" (fromisoformat t), by simp [h1, h2, getStr, ht]⟩
    · exact ⟨su.map (fun kv => (kv.1, ColVal.str kv.2)), by simp [h1, h2]⟩

theorem parsedData_lookup (su : List (String × String)) (s : String)
    (data : Row) (hnd : (akeys su).Nodup) (hs : alookup su "status" = some s)
    (hd : parsedData su s = .ok data) :
    alookup data "status" = some (ColVal.str s) ∧
    (∀ t, s = "STARTED" → alookup su "started_time" = some t →
      alookup data "started_time" = some (fromisoformat t)) ∧
    (∀ t, s = "SUCCESS" ∨ s = "FAILURE" → alookup su "finished_time" = some t →
      alookup data "finished_time" = some (fromisoformat t)) ∧
    (∀ k v, alookup su k = some v →
      (k = "started_time" → s ≠ "STARTED") →
      (k = "finished_time" → ¬(s = "SUCCESS" ∨ s = "FAILURE")) →
      alookup data k = some (ColVal.str v)) ∧
    (akeys data).Nodup := by
  have hnd0 : (akeys (su.map (fun kv => (kv.1, ColVal.str kv.2)))).Nodup := by
    rw [akeys_map_val]; exact hnd
  have hl0 : ∀ k2, alookup (su.map (fun kv => (kv.1, ColVal.str kv.2))) k2 =
      (alookup su k2).map ColVal.str := fun k2 => alookup_map_val su ColVal.str k2
  unfold parsedData at hd
  by_cases h1 : s = "STARTED"
  · cases ht : alookup su "started_time" with
    | none => simp [h1, getStr, ht] at hd
    | some t0 =>
      simp only [h1, if_true, getStr, ht] at hd
      injection hd with hd
      subst hd
      refine ⟨?_, ?_, ?_, ?_, ?_⟩
      · rw [alookup_ainsert_ne _ _ (by decide), hl0, hs]; rfl
      · intro t _ hti
        obtain rfl : t0 = t := Option.some.inj hti
        exact alookup_ainsert_self _ _ _
      · intro t hcase _
        rcases hcase with hc | hc
        · rw [h1] at hc; exact absurd hc (by decide)
        · rw [h1] at hc; exact absurd hc (by decide)
      · intro k v hv hkst _
        have hkne : "started_time" ≠ k := fun he => (hkst he.symm) h1
        rw [alookup_ainsert_ne _ _ hkne, hl0, hv]; rfl
      · exact nodup_akeys_ainsert _ _ _ hnd0
  · by_cases h2 : s = "SUCCESS" ∨ s = "FAILURE"
    · cases ht : alookup su "finished_time" with
      | none => simp [h1, h2, getStr, ht] at hd
      | some t0 =>
        simp only [h1, h2, if_true, if_false, getStr, ht] at hd
        injection hd with hd
        subst hd
        refine ⟨?_, ?_, ?_, ?_, ?_⟩
        · rw [alookup_ainsert_ne _ _ (by decide), hl0, hs]; rfl
        · intro t hc _
          exact absurd hc h1
        · intro t _ hti
          obtain rfl : t0 = t := Option.some.inj hti
          exact alookup_ainsert_self _ _ _
        · intro k v hv _ hkfin
          have hkne : "finished_time" ≠ k := fun he => (hkfin he.symm) h2
          rw [alookup_ainsert_ne _ _ hkne, hl0, hv]; rfl
        · exact nodup_akeys_ainsert _ _ _ hnd0
    · simp only [h1, h2, if_false] at hd
      injection hd with hd
      subst hd
      refine ⟨?_, ?_, ?_, ?_, ?_⟩
      · rw [hl0, hs]; rfl
      · intro t hc _
        exact absurd hc h1
      · intro t hc _
        exact absurd hc h2
      · intro k v hv _ _
        rw [hl0, hv]; rfl
      · exact hnd0

/-! ## Settings helper lemmas -/

theorem validateKey_ok_inv {cloud migrate : Bool} {k : String} {val : CVSpec}
    {d d2 : SDict} (h : validateKey cloud migrate k val d = .ok d2) :
    akeys d2 = akeys d ∧ ∀ k2, k2 ≠ k → alookup d2 k2 = alookup d k2 := by
  unfold validateKey at h
  cases halo : alookup d k with
  | none =>
    rw [halo] at h
    injection h with h
    subst h
    exact ⟨rfl, fun _ _ => rfl⟩
  | some gv =>
    rw [halo] at h
    have hmem : k ∈ akeys d := by
      by_contra hm
      rw [(alookup_none_iff d k).mpr hm] at halo
      exact Option.noConfusion halo
    simp only at h
    by_cases h1 : typeTag gv ≠ val.tag
    · rw [if_pos h1] at h
      by_cases h2 : (!migrate || (cloud && decide (k ∈ cloudUnmodifiableConfigOpts))) = true
      · rw [if_pos h2] at h
        exact absurd h (by simp)
      · rw [if_neg h2] at h
        simp only at h
        cases hc : val.condition with
        | none =>
          simp only [hc] at h
          injection h with h
          subst h
          refine ⟨akeys_ainsert_mem d k val.default hmem, ?_⟩
          intro k2 hk2
          exact alookup_ainsert_ne d val.default (Ne.symm hk2)
        | some c =>
          simp only [hc] at h
          cases hcv : c gv with
          | error m =>
            simp only [hcv] at h
            exact Except.noConfusion h
          | ok b =>
            simp only [hcv] at h
            cases b with
            | true =>
              rw [if_pos rfl] at h
              injection h with h
              subst h
              refine ⟨akeys_ainsert_mem d k val.default hmem, ?_⟩
              intro k2 hk2
              exact alookup_ainsert_ne d val.default (Ne.symm hk2)
            | false =>
              rw [if_neg (by simp)] at h
              rw [if_neg h2] at h
              injection h with h
              subst h
              have hmem2 : k ∈ akeys (ainsert d k val.default) := by
                rw [akeys_ainsert_mem d k val.default hmem]; exact hmem
              refine ⟨?_, ?_⟩
              · rw [akeys_ainsert_mem _ k val.default hmem2,
                  akeys_ainsert_mem d k val.default hmem]
              · intro k2 hk2
                rw [alookup_ainsert_ne _ val.default (Ne.symm hk2),
                  alookup_ainsert_ne d val.default (Ne.symm hk2)]
    · rw [if_neg h1] at h
      simp only at h
      cases hc : val.condition with
      | none =>
        simp only [hc] at h
        injection h with h
        subst h
        exact ⟨rfl, fun _ _ => rfl⟩
      | some c =>
        simp only [hc] at h
        cases hcv : c gv with
        | error m =>
          simp only [hcv] at h
          exact Except.noConfusion h
        | ok b =>
          simp only [hcv] at h
          cases b with
          | true =>
            rw [if_pos rfl] at h
            injection h with h
            subst h
            exact ⟨rfl, fun _ _ => rfl⟩
          | false =>
            rw [if_neg (by simp)] at h
            by_cases h2 : (!migrate || (cloud && decide (k ∈ cloudUnmodifiableConfigOpts))) = true
            · rw [if_pos h2] at h
              exact absurd h (by simp)
            · rw [if_neg h2] at h
              injection h with h
              subst h
              refine ⟨akeys_ainsert_mem d k val.default hmem, ?_⟩
              intro k2 hk2
              exact alookup_ainsert_ne d val.default (Ne.symm hk2)

theorem validateList_ok_inv {cloud migrate : Bool}
    (l : List (String × CVSpec)) (d d2 : SDict)
    (h : validateList cloud migrate l d = .ok d2) :
    akeys d2 = akeys d ∧
    ∀ k2, k2 ∉ l.map Prod.fst → alookup d2 k2 = alookup d k2 := by
  induction l generalizing d with
  | nil =>
    unfold validateList at h
    injection h with h
    subst h
    exact ⟨rfl, fun _ _ => rfl⟩
  | cons kv t ih =>
    unfold validateList at h
    cases hv : validateKey cloud migrate kv.1 kv.2 d with
    | error e => rw [hv] at h; exact absurd h (by simp)
    | ok d1 =>
      rw [hv] at h
      obtain ⟨hk1, hl1⟩ := validateKey_ok_inv hv
      obtain ⟨hk2, hl2⟩ := ih d1 h
      refine ⟨hk2.trans hk1, ?_⟩
      intro k2 hk2m
      have hne : k2 ≠ kv.1 ∧ k2 ∉ t.map Prod.fst := by
        constructor
        · intro he
          exact hk2m (by simp [he])
        · intro he
          exact hk2m (by simp [he])
      rw [hl2 k2 hne.2, hl1 k2 hne.1]

theorem validateDict_ok_inv {cloud migrate : Bool} {d d2 : SDict}
    (h : validateDict cloud d migrate = .ok d2) :
    akeys d2 = akeys d ∧
    ∀ k2, k2 ∉ registryKeys → alookup d2 k2 = alookup d k2 :=
  validateList_ok_inv configValues d d2 h

theorem alookup_unmodFoldList (cur : SDict) (opts : List String) (m : SDict)
    (k : String) :
    alookup (unmodFoldList cur opts m) k =
      if k ∈ opts then ofirst (alookup cur k) (alookup m k)
      else alookup m k := by
  induction opts generalizing m with
  | nil => simp [unmodFoldList]
  | cons k1 t ih =>
    rw [unmodFoldList, ih]
    by_cases hk1 : k1 = k
    · subst hk1
      cases hcur : alookup cur k1 with
      | none =>
        simp only [hcur]
        by_cases hkt : k1 ∈ t <;> simp [hkt, ofirst]
      | some v =>
        simp only [hcur]
        by_cases hkt : k1 ∈ t <;>
          simp [hkt, ofirst, alookup_ainsert_self m k1 v]
    · have hstep : alookup
          (match alookup cur k1 with
           | some v => ainsert m k1 v
           | none => m) k = alookup m k := by
        cases hcur : alookup cur k1 with
        | none => rfl
        | some v => exact alookup_ainsert_ne m v hk1
      rw [hstep]
      by_cases hkt : k ∈ t <;> simp [hkt, List.mem_cons, Ne.symm hk1]

theorem alookup_unmodFold (cur : SDict) (k : String) :
    alookup (unmodFold cur) k =
      if k ∈ cloudUnmodifiableConfigOpts then ofirst (alookup cur k) none
      else none := by
  unfold unmodFold
  rw [alookup_unmodFoldList]
  rfl

theorem alookup_filter_mem {α : Type} (d : List (String × α))
    (ks : List String) (k : String) :
    alookup (d.filter (fun kv => decide (kv.1 ∈ ks))) k =
      if k ∈ ks then alookup d k else none := by
  induction d with
  | nil => simp [alookup]
  | cons kv t ih =>
    obtain ⟨k1, v1⟩ := kv
    by_cases hq : k1 ∈ ks
    · by_cases hk : k1 = k
      · subst hk
        simp [List.filter_cons, alookup, hq]
      · simp [List.filter_cons, alookup, hq, hk, ih]
    · by_cases hk : k1 = k
      · subst hk
        simp [List.filter_cons, hq, ih]
      · simp [List.filter_cons, alookup, hq, hk, ih]

theorem alookup_savePersist (dbStore eff : SDict) (k : String)
    (h : (akeys eff).Nodup) :
    alookup (savePersist dbStore eff) k = alookup eff k := by
  unfold savePersist
  rw [alookup_filter_mem]
  by_cases hm : k ∈ akeys eff
  · rw [if_pos hm]
    rw [alookup_aupdate_nodup dbStore eff k h]
    cases hv : alookup eff k with
    | none => exact absurd ((alookup_none_iff eff k).mp hv) (by simp [hm])
    | some v => rfl
  · rw [if_neg hm]
    exact ((alookup_none_iff eff k).mpr hm).symm

theorem updateSettings_unmod (cloud : Bool) (st : OrchestState) (d : SDict) :
    ((updateSettings cloud st d).2).unmodifiable = st.unmodifiable := by
  unfold updateSettings
  cases validateDict cloud d false <;> rfl

theorem setSettings_unmod (cloud : Bool) (st : OrchestState) (d : SDict) :
    ((setSettings cloud st d).2).unmodifiable = st.unmodifiable := by
  unfold setSettings
  cases validateDict cloud d false <;> rfl

theorem akeys_defaultsDict : akeys defaultsDict = registryKeys := by rfl

theorem nodup_registryKeys : registryKeys.Nodup := by decide

theorem cloudOpts_subset_registry :
    ∀ x ∈ cloudUnmodifiableConfigOpts, x ∈ registryKeys := by decide

theorem settingsInit_ok_inv {cloud : Bool} {dbS : SDict} {st : OrchestState}
    (h : settingsInit cloud dbS = .ok st) :
    validateDict cloud dbS true = .ok st.current ∧
    st.defaults = defaultsDict ∧
    st.unmodifiable = (if cloud then unmodFold st.current else []) := by
  unfold settingsInit at h
  cases hv : validateDict cloud dbS true with
  | error e => rw [hv] at h; exact absurd h (by simp)
  | ok cur =>
    rw [hv] at h
    injection h with h
    subst h
    exact ⟨rfl, rfl, rfl⟩

theorem list_filter_nil_of {α : Type} (l : List α) (p : α → Bool)
    (h : ∀ x ∈ l, p x = false) : l.filter p = [] := by
  induction l with
  | nil => rfl
  | cons x t ih =>
    rw [List.filter_cons, h x (by simp)]
    simp only [Bool.false_eq_true, if_false]
    exact ih (fun y hy => h y (by simp [hy]))

theorem crrStep_eq (cloud : Bool) (live neu : SDict) (res : List String)
    (kv : String × CVSpec) :
    crrStep cloud live neu res kv =
      res ++ (if restartPred cloud live neu kv then [kv.1] else []) := by
  unfold crrStep restartPred
  cases hr : kv.2.requiresRestart with
  | false => simp [hr]
  | true =>
    cases hc : (cloud && decide (kv.1 ∈ cloudUnmodifiableConfigOpts)) with
    | true => simp [hr, hc]
    | false =>
      cases hn : alookup neu kv.1 with
      | none => simp [hr, hc, hn]
      | some nv =>
        cases hl : alookup live kv.1 with
        | none => simp [hr, hc, hn, hl]
        | some ov =>
          cases he : pyEq nv ov with
          | true => simp [hr, hc, hn, hl, he]
          | false => simp [hr, hc, hn, hl, he]

theorem crrList_eq (cloud : Bool) (live neu : SDict)
    (l : List (String × CVSpec)) (res : List String) :
    crrList cloud live neu l res =
      res ++ (l.filter (restartPred cloud live neu)).map Prod.fst := by
  induction l generalizing res with
  | nil => simp [crrList]
  | cons kv t ih =>
    rw [crrList, ih, crrStep_eq, List.filter_cons]
    by_cases hp : restartPred cloud live neu kv
    · simp [hp]
    · simp [hp]

theorem settingsInit_unmod_none {cloud : Bool} {dbS : SDict}
    {st : OrchestState} (h : settingsInit cloud dbS = .ok st) (k : String)
    (hk : k ∉ cloudUnmodifiableConfigOpts) :
    alookup st.unmodifiable k = none := by
  obtain ⟨-, -, hu⟩ := settingsInit_ok_inv h
  rw [hu]
  cases cloud with
  | false => rfl
  | true =>
    rw [if_pos rfl, alookup_unmodFold, if_neg hk]

theorem settingsInit_current_nodup {cloud : Bool} {dbS : SDict}
    {st : OrchestState} (h : settingsInit cloud dbS = .ok st)
    (hnd : (akeys dbS).Nodup) : (akeys st.current).Nodup := by
  obtain ⟨hv, -, -⟩ := settingsInit_ok_inv h
  obtain ⟨hk, -⟩ := validateDict_ok_inv hv
  rw [hk]
  exact hnd

theorem validateList_ok_of_no_keys (cloud migrate : Bool)
    (l : List (String × CVSpec)) (d : SDict)
    (h : ∀ kv ∈ l, alookup d kv.1 = none) :
    validateList cloud migrate l d = .ok d := by
  induction l with
  | nil => rfl
  | cons kv t ih =>
    have hk := h kv (by simp)
    unfold validateList validateKey
    simp only [hk]
    exact ih (fun kv2 hkv2 => h kv2 (by simp [hkv2]))

theorem settings_nonregistry_lookup (st1 : OrchestState) (k : String)
    (v : PyVal) (dbStore : SDict)
    (hu : alookup st1.unmodifiable k = none)
    (hdef : st1.defaults = defaultsDict)
    (hcur : alookup st1.current k = some v)
    (hcnd : (akeys st1.current).Nodup) :
    settingsGet st1 k = some v ∧ alookup (asDict st1) k = some v ∧
    alookup (savePersist dbStore (asDict st1)) k = some v := by
  have hget : settingsGet st1 k = some v := by
    unfold settingsGet
    rw [hu, hcur]
    rfl
  have hndd : (akeys st1.defaults).Nodup := by
    rw [hdef, akeys_defaultsDict]
    exact nodup_registryKeys
  have hnd2 : (akeys (aupdate st1.defaults st1.current)).Nodup :=
    nodup_akeys_aupdate _ _ hndd
  have hdict : alookup (asDict st1) k = some v := by
    unfold asDict
    rw [alookup_aupdate_not_mem _ _ k ((alookup_none_iff _ _).mp hu)]
    rw [alookup_aupdate_nodup _ _ k hcnd, hcur]
    rfl
  have hnd3 : (akeys (asDict st1)).Nodup := by
    unfold asDict
    exact nodup_akeys_aupdate _ _ hnd2
  refine ⟨hget, hdict, ?_⟩
  rw [alookup_savePersist _ _ _ hnd3]
  exact hdict

/-! ## Claims -/

/-- C1 counterexample: the claim as stated fails.  For an entity already in
the terminal status `SUCCESS`, calling `apply_status_update` with the new
status fields `{status: STARTED}` (legal fields per the data model, whose
timestamps are optional) raises `KeyError` while parsing `started_time` —
it does not return `false`. -/
theorem c1_missing_time_key_cex :
    update_status_db [("status", "STARTED")] [("uuid", "e1")]
        [[("uuid", ColVal.str "e1"), ("status", ColVal.str "SUCCESS")]] =
      .error (.keyError "started_time") ∧
    update_status_db [("status", "STARTED")] [("uuid", "e1")]
        [[("uuid", ColVal.str "e1"), ("status", ColVal.str "SUCCESS")]] ≠
      .ok (false, [[("uuid", ColVal.str "e1"), ("status", ColVal.str "SUCCESS")]]) :=
  ⟨rfl, by decide⟩

/-- C1 (amended): for every entity whose current status is terminal
(`SUCCESS`, `FAILURE` or `ABORTED`), `apply_status_update` with any filter
matching only such entities and any new status fields that contain the
timestamp key the new status requires (`started_time` for `STARTED`,
`finished_time` for `SUCCESS`/`FAILURE`) returns `false`, leaves every
record unchanged, and does not raise for the no-row-matched outcome. -/
theorem c1_terminal_write_once (su fb : List (String × String))
    (table : List Row) (s : String)
    (hs : alookup su "status" = some s)
    (hst : s = "STARTED" → (alookup su "started_time").isSome)
    (hfin : s = "SUCCESS" ∨ s = "FAILURE" → (alookup su "finished_time").isSome)
    (hterm : ∀ row ∈ table, rowMatches fb row = true →
      ∃ s2, alookup row "status" = some (ColVal.str s2) ∧
        (s2 = "SUCCESS" ∨ s2 = "FAILURE" ∨ s2 = "ABORTED")) :
    update_status_db su fb table = .ok (false, table) := by
  obtain ⟨data, hd⟩ := parsedData_ok su s hst hfin
  rw [usdb_eval su fb table s data hs hd]
  have hguard : ∀ row ∈ table, matchesGuard fb row = false := by
    intro row hr
    unfold matchesGuard
    cases hm : rowMatches fb row with
    | false => rfl
    | true =>
      obtain ⟨s2, hs2, hcases⟩ := hterm row hr hm
      have hnt : nonTerminal row = false := by
        unfold nonTerminal
        rw [hs2]
        rcases hcases with h | h | h <;> subst h <;> rfl
      rw [hnt, Bool.and_false]
  have hfilter : table.filter (fun r => matchesGuard fb r) = [] :=
    list_filter_nil_of table _ (fun r hr => hguard r hr)
  have hmap : table.map
      (fun r => if matchesGuard fb r then aupdate r data else r) = table := by
    apply list_map_id_of_eq
    intro r hr
    rw [hguard r hr]
    simp
  rw [hfilter, hmap]
  rfl

/-- C1 witness: a well-keyed `FAILURE` update against a `SUCCESS` entity
returns `false` and changes nothing. -/
theorem c1_terminal_write_once_witness :
    update_status_db
        [("status", "FAILURE"), ("finished_time", "2022-01-01T00:00:00")]
        [("uuid", "e1")]
        [[("uuid", ColVal.str "e1"), ("status", ColVal.str "SUCCESS")]] =
      .ok (false, [[("uuid", ColVal.str "e1"), ("status", ColVal.str "SUCCESS")]]) :=
  c1_terminal_write_once _ _ _ "FAILURE" rfl (by decide) (by decide)
    (by
      intro row hr hm
      rw [List.mem_singleton] at hr
      subst hr
      exact ⟨"SUCCESS", rfl, Or.inl rfl⟩)

/-- C2 (code bug, evaluated at the failing input): booting with the
persisted settings `{MAX_JOB_RUNS_PARALLELISM: "5"}` raises instead of
migrating the corrupted value to its default.  Migration replaces the
value, but the range condition is then evaluated on the stale original
string, the int-vs-str comparison raises `TypeError`, and the
`except` handler itself fails on the nonexistent `self._path` attribute —
so Resolver construction raises. -/
theorem c2_boot_migration_raises :
    settingsInit false [("MAX_JOB_RUNS_PARALLELISM", PyVal.str "5")] =
      .error (.attributeError attrErrMsg) := rfl

/-- C3 (code bug, evaluated at the failing input): with `migrate = true`
and candidate `{MAX_JOB_RUNS_PARALLELISM: "5"}`, the predicate is NOT
evaluated on `candidate[key]` (which migration has set to the default `1`,
on which the predicate succeeds — second conjunct): it is evaluated on the
stale originally-fetched value `"5"`, and the comparison raises
`TypeError`. -/
theorem c3_predicate_stale_value :
    validateDict false [("MAX_JOB_RUNS_PARALLELISM", PyVal.str "5")] true =
      .error (.typeError cmpErrMsg) ∧
    cond_range_1_25 (PyVal.int 1) = .ok true :=
  ⟨rfl, rfl⟩

/-- C4 counterexample: the claim as stated fails for the terminal status
`ABORTED`.  An `ABORTED` update of a `PENDING` entity succeeds and applies
the fields, but `finished_time` is stored as the raw string — it is NOT
parsed (the source parses `finished_time` only for `SUCCESS`/`FAILURE`). -/
theorem c4_aborted_unparsed_cex :
    update_status_db
        [("status", "ABORTED"), ("finished_time", "2022-01-01T00:00:00")]
        [("uuid", "e1")]
        [[("uuid", ColVal.str "e1"), ("status", ColVal.str "PENDING")]] =
      .ok (true, [[("uuid", ColVal.str "e1"), ("status", ColVal.str "ABORTED"),
        ("finished_time", ColVal.str "2022-01-01T00:00:00")]]) ∧
    ColVal.str "2022-01-01T00:00:00" ≠ fromisoformat "2022-01-01T00:00:00" :=
  ⟨rfl, by decide⟩

/-- C4 (amended): for every entity in status `PENDING` or `STARTED`
matched by the filter, `apply_status_update` (with the timestamp key its
new status requires present) returns `true` and applies the new fields;
`started_time` is parsed when the new status is `STARTED` and
`finished_time` is parsed when it is `SUCCESS` or `FAILURE`; every other
field — including `finished_time` under `ABORTED` — is applied as its
plain string. -/
theorem c4_nonterminal_transition (su fb : List (String × String))
    (table : List Row) (s : String)
    (hnd : (akeys su).Nodup)
    (hs : alookup su "status" = some s)
    (hst : s = "STARTED" → (alookup su "started_time").isSome)
    (hfin : s = "SUCCESS" ∨ s = "FAILURE" → (alookup su "finished_time").isSome)
    (hmatch : ∃ row ∈ table, matchesGuard fb row = true) :
    ∃ table2 : List Row, update_status_db su fb table = .ok (true, table2) ∧
      table2.length = table.length ∧
      ∀ (i : Nat) (row : Row), table[i]? = some row → matchesGuard fb row = true →
        ∃ row2 : Row, table2[i]? = some row2 ∧
          alookup row2 "status" = some (ColVal.str s) ∧
          (∀ t, s = "STARTED" → alookup su "started_time" = some t →
            alookup row2 "started_time" = some (fromisoformat t)) ∧
          (∀ t, s = "SUCCESS" ∨ s = "FAILURE" →
            alookup su "finished_time" = some t →
            alookup row2 "finished_time" = some (fromisoformat t)) ∧
          ∀ k v, alookup su k = some v →
            (k = "started_time" → s ≠ "STARTED") →
            (k = "finished_time" → ¬(s = "SUCCESS" ∨ s = "FAILURE")) →
            alookup row2 k = some (ColVal.str v) := by
  obtain ⟨data, hd⟩ := parsedData_ok su s hst hfin
  obtain ⟨hA, hB, hC, hD, hE⟩ := parsedData_lookup su s data hnd hs hd
  refine ⟨table.map (fun r => if matchesGuard fb r then aupdate r data else r),
    ?_, by simp, ?_⟩
  · rw [usdb_eval su fb table s data hs hd]
    obtain ⟨row, hrow, hg⟩ := hmatch
    have hmem : row ∈ table.filter (fun r => matchesGuard fb r) :=
      List.mem_filter.mpr ⟨hrow, hg⟩
    have hlen : 0 < (table.filter (fun r => matchesGuard fb r)).length :=
      List.length_pos_of_mem hmem
    simp [hlen]
  · intro i row hrow hg
    refine ⟨aupdate row data, ?_, ?_, ?_, ?_, ?_⟩
    · rw [List.getElem?_map, hrow]
      simp [hg]
    · rw [alookup_aupdate_nodup row data _ hE, hA]
      rfl
    · intro t h1 h2
      rw [alookup_aupdate_nodup row data _ hE, hB t h1 h2]
      rfl
    · intro t h1 h2
      rw [alookup_aupdate_nodup row data _ hE, hC t h1 h2]
      rfl
    · intro k v hv g1 g2
      rw [alookup_aupdate_nodup row data _ hE, hD k v hv g1 g2]
      rfl

/-- C4 witness: a `PENDING` entity moved to `STARTED` with a parsed
`started_time`. -/
theorem c4_nonterminal_transition_witness :
    ∃ table2 : List Row,
      update_status_db [("status", "STARTED"), ("started_time", "2022-01-01T00:00:00")]
          [("uuid", "e1")]
          [[("uuid", ColVal.str "e1"), ("status", ColVal.str "PENDING")]] =
        .ok (true, table2) ∧
      table2.length =
        ([[("uuid", ColVal.str "e1"), ("status", ColVal.str "PENDING")]] : List Row).length ∧
      ∀ (i : Nat) (row : Row),
        ([[("uuid", ColVal.str "e1"), ("status", ColVal.str "PENDING")]] : List Row)[i]? =
          some row →
        matchesGuard [("uuid", "e1")] row = true →
        ∃ row2 : Row, table2[i]? = some row2 ∧
          alookup row2 "status" = some (ColVal.str "STARTED") ∧
          (∀ t, "STARTED" = "STARTED" →
            alookup [("status", "STARTED"), ("started_time", "2022-01-01T00:00:00")]
              "started_time" = some t →
            alookup row2 "started_time" = some (fromisoformat t)) ∧
          (∀ t, "STARTED" = "SUCCESS" ∨ "STARTED" = "FAILURE" →
            alookup [("status", "STARTED"), ("started_time", "2022-01-01T00:00:00")]
              "finished_time" = some t →
            alookup row2 "finished_time" = some (fromisoformat t)) ∧
          ∀ k v,
            alookup [("status", "STARTED"), ("started_time", "2022-01-01T00:00:00")] k =
              some v →
            (k = "started_time" → "STARTED" ≠ "STARTED") →
            (k = "finished_time" → ¬("STARTED" = "SUCCESS" ∨ "STARTED" = "FAILURE")) →
            alookup row2 k = some (ColVal.str v) :=
  c4_nonterminal_transition
    [("status", "STARTED"), ("started_time", "2022-01-01T00:00:00")]
    [("uuid", "e1")]
    [[("uuid", ColVal.str "e1"), ("status", ColVal.str "PENDING")]]
    "STARTED" (by decide) rfl (by decide) (by decide)
    ⟨[("uuid", ColVal.str "e1"), ("status", ColVal.str "PENDING")],
      List.mem_singleton.mpr rfl, by decide⟩

/-- C5 (confirmed): lookup resolves locked, then stored, then default
layer.  For every registry key absent from the locked and stored layers,
`get` returns the registry default, which is always defined; and in
restricted (cloud) mode, for every operator-locked key present in the
stored layer at construction, `get` returns that construction-time stored
value even after any later `update` call. -/
theorem c5_lookup_precedence (cloud : Bool) (dbS : SDict) (st : OrchestState)
    (hinit : settingsInit cloud dbS = .ok st) :
    (∀ k, k ∈ registryKeys → alookup st.unmodifiable k = none →
      alookup st.current k = none →
      settingsGet st k = alookup defaultsDict k ∧
      (alookup defaultsDict k).isSome) ∧
    (∀ k v d, cloud = true → k ∈ cloudUnmodifiableConfigOpts →
      alookup st.current k = some v →
      settingsGet st k = some v ∧
      settingsGet (updateSettings cloud st d).2 k = some v) := by
  obtain ⟨hv, hdef, hunmod⟩ := settingsInit_ok_inv hinit
  constructor
  · intro k hk hu hc
    constructor
    · unfold settingsGet
      rw [hu, hc, hdef]
      rfl
    · rw [← akeys_defaultsDict] at hk
      exact alookup_isSome_of_mem defaultsDict k hk
  · intro k v d hcloud hk hc
    have hlu : alookup st.unmodifiable k = some v := by
      rw [hunmod, hcloud, if_pos rfl, alookup_unmodFold, if_pos hk, hc]
      rfl
    constructor
    · unfold settingsGet
      rw [hlu]
      rfl
    · unfold settingsGet
      rw [updateSettings_unmod, hlu]
      rfl

/-- C5 witness: a cloud Resolver built over stored
`{AUTH_ENABLED: true}` serves the default for `TELEMETRY_DISABLED` and
keeps serving `true` for `AUTH_ENABLED` after `update` to `false`. -/
theorem c5_lookup_precedence_witness :
    settingsGet
        { unmodifiable := [("AUTH_ENABLED", PyVal.bool true)],
          current := [("AUTH_ENABLED", PyVal.bool true)],
          defaults := defaultsDict } "TELEMETRY_DISABLED" =
      alookup defaultsDict "TELEMETRY_DISABLED" ∧
    settingsGet
        (updateSettings true
          { unmodifiable := [("AUTH_ENABLED", PyVal.bool true)],
            current := [("AUTH_ENABLED", PyVal.bool true)],
            defaults := defaultsDict }
          [("AUTH_ENABLED", PyVal.bool false)]).2 "AUTH_ENABLED" =
      some (PyVal.bool true) := by
  have h := c5_lookup_precedence true [("AUTH_ENABLED", PyVal.bool true)]
    { unmodifiable := [("AUTH_ENABLED", PyVal.bool true)],
      current := [("AUTH_ENABLED", PyVal.bool true)],
      defaults := defaultsDict } rfl
  exact ⟨(h.1 "TELEMETRY_DISABLED" (by decide) (by decide) (by decide)).1,
    (h.2 "AUTH_ENABLED" (PyVal.bool true) [("AUTH_ENABLED", PyVal.bool false)]
      rfl (by decide) rfl).2⟩

/-- C6 (confirmed): updating with a wrongly-typed value for
`MAX_JOB_RUNS_PARALLELISM` raises `TypeError` (the spec's
`TypeMismatchError`); the very same error produced by the Validator is
what `update` re-raises, and the state — in particular the stored layer —
is unchanged; no key of the candidate is merged. -/
theorem c6_type_mismatch_rejection (cloud : Bool) (st : OrchestState)
    (v : PyVal) (rest : SDict) (h : typeTag v ≠ PyTag.int) :
    validateDict cloud (("MAX_JOB_RUNS_PARALLELISM", v) :: rest) false =
      .error (.typeError
        (typeErrMsg "MAX_JOB_RUNS_PARALLELISM" PyTag.int (typeTag v))) ∧
    updateSettings cloud st (("MAX_JOB_RUNS_PARALLELISM", v) :: rest) =
      (.error (.typeError
        (typeErrMsg "MAX_JOB_RUNS_PARALLELISM" PyTag.int (typeTag v))), st) := by
  have halo : alookup (("MAX_JOB_RUNS_PARALLELISM", v) :: rest)
      "MAX_JOB_RUNS_PARALLELISM" = some v := by
    simp [alookup]
  have h1 : validateDict cloud (("MAX_JOB_RUNS_PARALLELISM", v) :: rest) false =
      .error (.typeError
        (typeErrMsg "MAX_JOB_RUNS_PARALLELISM" PyTag.int (typeTag v))) := by
    unfold validateDict configValues validateList validateKey
    simp only [halo]
    rw [if_pos h]
    simp
  refine ⟨h1, ?_⟩
  unfold updateSettings
  rw [h1]

/-- C6 witness: the spec's own example, `{"MAX_JOB_RUNS_PARALLELISM": "5"}`. -/
theorem c6_type_mismatch_rejection_witness :
    updateSettings false
        { unmodifiable := [], current := [], defaults := defaultsDict }
        [("MAX_JOB_RUNS_PARALLELISM", PyVal.str "5")] =
      (.error (.typeError
        (typeErrMsg "MAX_JOB_RUNS_PARALLELISM" PyTag.int PyTag.str)),
       { unmodifiable := [], current := [], defaults := defaultsDict }) :=
  (c6_type_mismatch_rejection false
    { unmodifiable := [], current := [], defaults := defaultsDict }
    (PyVal.str "5") [] (by decide)).2

/-- C7 (confirmed): the Restart-Impact Analyzer returns, in registry
iteration order, exactly the keys with `requires_restart` that are not
cloud-locked in cloud mode, are defined in the new map, and whose new
value differs from the live runtime value (an absent live value counts as
different); and when new map and live runtime agree on every such defined
key the result is empty.  Stated as equality with `specRestartDiff`, the
filter written from the spec's words. -/
theorem c7_restart_impact_diff (cloud : Bool) (live neu : SDict) :
    changesRequireRestart cloud live neu = specRestartDiff cloud live neu ∧
    ((∀ k spec, (k, spec) ∈ configValues → spec.requiresRestart = true →
        ¬(cloud = true ∧ k ∈ cloudUnmodifiableConfigOpts) →
        ∀ nv, alookup neu k = some nv →
          ∃ ov, alookup live k = some ov ∧ pyEq nv ov = true) →
      changesRequireRestart cloud live neu = []) := by
  have hmain : changesRequireRestart cloud live neu =
      specRestartDiff cloud live neu := by
    unfold changesRequireRestart specRestartDiff
    rw [crrList_eq]
    rfl
  refine ⟨hmain, ?_⟩
  intro hagree
  rw [hmain]
  unfold specRestartDiff
  have hnil : configValues.filter (restartPred cloud live neu) = [] := by
    apply list_filter_nil_of
    intro kv hkv
    unfold restartPred
    cases hr : kv.2.requiresRestart with
    | false => simp [hr]
    | true =>
      cases hcl : (cloud && decide (kv.1 ∈ cloudUnmodifiableConfigOpts)) with
      | true => simp [hr, hcl]
      | false =>
        cases hn : alookup neu kv.1 with
        | none => simp [hr, hcl, hn]
        | some nv =>
          have hnotlocked :
              ¬(cloud = true ∧ kv.1 ∈ cloudUnmodifiableConfigOpts) := by
            rintro ⟨hc1, hc2⟩
            rw [hc1] at hcl
            simp [hc2] at hcl
          obtain ⟨ov, hov, heq⟩ := hagree kv.1 kv.2 hkv hr hnotlocked nv hn
          simp [hr, hcl, hn, hov, heq]
  rw [hnil]
  rfl

/-- C7 witness: identical new and live maps yield an empty diff. -/
theorem c7_restart_impact_diff_witness :
    changesRequireRestart false [("AUTH_ENABLED", PyVal.bool true)]
      [("AUTH_ENABLED", PyVal.bool true)] = [] :=
  (c7_restart_impact_diff false [("AUTH_ENABLED", PyVal.bool true)]
    [("AUTH_ENABLED", PyVal.bool true)]).2
    (by
      intro k spec hk hr hl nv hnv
      by_cases hke : k = "AUTH_ENABLED"
      · subst hke
        refine ⟨PyVal.bool true, rfl, ?_⟩
        have hnv2 : some (PyVal.bool true) = some nv := by
          rw [← hnv]
          rfl
        obtain rfl : PyVal.bool true = nv := Option.some.inj hnv2
        rfl
      · rw [show alookup [("AUTH_ENABLED", PyVal.bool true)] k = none from by
          simp [alookup]
          exact fun he => hke he.symm] at hnv
        exact Option.noConfusion hnv)

/-- C8 (confirmed): after `save`, the persistence store holds exactly the
key/value pairs of the Resolver's effective flattened map — every
effective pair is upserted and every previously persisted key outside the
effective key set is pruned.  Stated as: lookup in the post-save store
agrees with lookup in the effective map at every key. -/
theorem c8_save_prunes (cloud : Bool) (st : OrchestState) (dbStore : SDict)
    (flaskConfig : Option SDict) (h : (akeys (asDict st)).Nodup) :
    ∀ k, alookup ((saveSettings cloud st dbStore flaskConfig).1) k =
      alookup (asDict st) k := by
  intro k
  unfold saveSettings
  cases flaskConfig with
  | none => exact alookup_savePersist dbStore (asDict st) k h
  | some fc => exact alookup_savePersist dbStore (asDict st) k h

/-- C8 witness: a persisted `OLD_KEY` not in the effective map is gone
after save. -/
theorem c8_save_prunes_witness :
    alookup ((saveSettings false
        { unmodifiable := [], current := [], defaults := defaultsDict }
        [("OLD_KEY", PyVal.int 7)] none).1) "OLD_KEY" =
      alookup (asDict
        { unmodifiable := [], current := [], defaults := defaultsDict })
        "OLD_KEY" ∧
    alookup (asDict
      ({ unmodifiable := [], current := [], defaults := defaultsDict } :
        OrchestState)) "OLD_KEY" = none :=
  ⟨c8_save_prunes false
    { unmodifiable := [], current := [], defaults := defaultsDict }
    [("OLD_KEY", PyVal.int 7)] none (by decide) "OLD_KEY", by decide⟩

/-- C9 (confirmed): two racing status writers on the same `PENDING`
entity, one writing `SUCCESS` and one writing `FAILURE`.  The race is
modelled by its serializations (the guarded UPDATE is a single atomic
conditional statement, so any interleaving is one of the two orders):
whichever call runs first returns `true`; the second then finds the row
terminal, returns `false`, and changes nothing — the final status is the
winner's. -/
theorem c9_concurrent_race (fb : List (String × String)) (row : Row)
    (s1 s2 t1 t2 : String)
    (hrow : alookup row "status" = some (ColVal.str "PENDING"))
    (hm : rowMatches fb row = true)
    (hs : s1 = "SUCCESS" ∧ s2 = "FAILURE" ∨ s1 = "FAILURE" ∧ s2 = "SUCCESS") :
    ∃ row2 : Row,
      update_status_db [("status", s1), ("finished_time", t1)] fb [row] =
        .ok (true, [row2]) ∧
      update_status_db [("status", s2), ("finished_time", t2)] fb [row2] =
        .ok (false, [row2]) ∧
      alookup row2 "status" = some (ColVal.str s1) := by
  have hA : s1 = "SUCCESS" ∨ s1 = "FAILURE" := by
    rcases hs with ⟨h, -⟩ | ⟨h, -⟩
    · exact Or.inl h
    · exact Or.inr h
  have hB : s2 = "SUCCESS" ∨ s2 = "FAILURE" := by
    rcases hs with ⟨-, h⟩ | ⟨-, h⟩
    · exact Or.inr h
    · exact Or.inl h
  have hs1 : alookup [("status", s1), ("finished_time", t1)] "status" =
      some s1 := by simp [alookup]
  have hs2 : alookup [("status", s2), ("finished_time", t2)] "status" =
      some s2 := by simp [alookup]
  have hd1 : parsedData [("status", s1), ("finished_time", t1)] s1 =
      .ok [("status", ColVal.str s1), ("finished_time", ColVal.time t1)] := by
    rcases hA with h | h <;> subst h <;> rfl
  have hd2 : parsedData [("status", s2), ("finished_time", t2)] s2 =
      .ok [("status", ColVal.str s2), ("finished_time", ColVal.time t2)] := by
    rcases hB with h | h <;> subst h <;> rfl
  have hguard1 : matchesGuard fb row = true := by
    unfold matchesGuard nonTerminal
    rw [hm]
    simp only [hrow]
    rfl
  refine ⟨aupdate row [("status", ColVal.str s1), ("finished_time", ColVal.time t1)],
    ?_, ?_, ?_⟩
  · rw [usdb_eval _ fb [row] s1 _ hs1 hd1]
    simp [hguard1]
  · have hst2 : alookup
        (aupdate row [("status", ColVal.str s1), ("finished_time", ColVal.time t1)])
        "status" = some (ColVal.str s1) := by
      rw [show aupdate row
          [("status", ColVal.str s1), ("finished_time", ColVal.time t1)] =
          ainsert (ainsert row "status" (ColVal.str s1)) "finished_time"
            (ColVal.time t1) from rfl]
      rw [alookup_ainsert_ne _ _ (by decide), alookup_ainsert_self]
    have hguard2 : matchesGuard fb
        (aupdate row [("status", ColVal.str s1), ("finished_time", ColVal.time t1)]) =
        false := by
      unfold matchesGuard nonTerminal
      simp only [hst2]
      rcases hA with h | h <;> subst h <;> simp
    rw [usdb_eval _ fb _ s2 _ hs2 hd2]
    simp [hguard2]
  · rw [show aupdate row
        [("status", ColVal.str s1), ("finished_time", ColVal.time t1)] =
        ainsert (ainsert row "status" (ColVal.str s1)) "finished_time"
          (ColVal.time t1) from rfl]
    rw [alookup_ainsert_ne _ _ (by decide), alookup_ainsert_self]

/-- C9 witness: the concrete race on a single `PENDING` row, `SUCCESS`
first. -/
theorem c9_concurrent_race_witness :
    ∃ row2 : Row,
      update_status_db [("status", "SUCCESS"), ("finished_time", "T1")]
          [("uuid", "e1")]
          [[("uuid", ColVal.str "e1"), ("status", ColVal.str "PENDING")]] =
        .ok (true, [row2]) ∧
      update_status_db [("status", "FAILURE"), ("finished_time", "T2")]
          [("uuid", "e1")] [row2] =
        .ok (false, [row2]) ∧
      alookup row2 "status" = some (ColVal.str "SUCCESS") :=
  c9_concurrent_race [("uuid", "e1")]
    [("uuid", ColVal.str "e1"), ("status", ColVal.str "PENDING")]
    "SUCCESS" "FAILURE" "T1" "T2" rfl (by decide) (Or.inl ⟨rfl, rfl⟩)

/-- C10 (confirmed): keys outside the registry are never examined by the
Validator — a candidate made only of unregistered keys is always accepted
by `update` and `set` regardless of its values — and an unregistered
key/value pair of an accepted candidate is merged into the stored layer,
visible through `get` and `as_dict`, and persisted by `save`'s
upsert-and-prune alongside the registry keys. -/
theorem c10_unknown_keys_passthrough (cloud : Bool) (dbS : SDict)
    (st : OrchestState) (d : SDict) (k : String) (v : PyVal) (dbStore : SDict)
    (hinit : settingsInit cloud dbS = .ok st)
    (hdbnd : (akeys dbS).Nodup)
    (hk : k ∉ registryKeys)
    (hv : alookup d k = some v)
    (hnd : (akeys d).Nodup) :
    ((∀ k2 ∈ akeys d, k2 ∉ registryKeys) →
      (updateSettings cloud st d).1 = .ok () ∧
      (setSettings cloud st d).1 = .ok ()) ∧
    (∀ st1, updateSettings cloud st d = (.ok (), st1) →
      alookup st1.current k = some v ∧ settingsGet st1 k = some v ∧
      alookup (asDict st1) k = some v ∧
      alookup (savePersist dbStore (asDict st1)) k = some v) ∧
    (∀ st1, setSettings cloud st d = (.ok (), st1) →
      alookup st1.current k = some v ∧ settingsGet st1 k = some v ∧
      alookup (asDict st1) k = some v ∧
      alookup (savePersist dbStore (asDict st1)) k = some v) := by
  have hkopts : k ∉ cloudUnmodifiableConfigOpts :=
    fun hc => hk (cloudOpts_subset_registry k hc)
  have hu : alookup st.unmodifiable k = none :=
    settingsInit_unmod_none hinit k hkopts
  have hcurnd : (akeys st.current).Nodup := settingsInit_current_nodup hinit hdbnd
  obtain ⟨-, hstdef, -⟩ := settingsInit_ok_inv hinit
  constructor
  · intro hall
    have hvd : validateDict cloud d false = .ok d := by
      apply validateList_ok_of_no_keys
      intro kv hkv
      rw [alookup_none_iff]
      intro hmem
      exact hall kv.1 hmem (List.mem_map_of_mem Prod.fst hkv)
    constructor
    · unfold updateSettings
      rw [hvd]
    · unfold setSettings
      rw [hvd]
  constructor
  · intro st1 h1
    unfold updateSettings at h1
    cases hvd : validateDict cloud d false with
    | error e =>
      rw [hvd] at h1
      exact absurd (congrArg Prod.fst h1) (by simp)
    | ok d2 =>
      rw [hvd] at h1
      obtain ⟨hkeys2, hlook2⟩ := validateDict_ok_inv hvd
      have hv2 : alookup d2 k = some v := by rw [hlook2 k hk, hv]
      have hnd2 : (akeys d2).Nodup := by rw [hkeys2]; exact hnd
      have hst1 : st1 = { st with current := aupdate st.current d2 } :=
        (congrArg Prod.snd h1).symm
      subst hst1
      have hcur : alookup (aupdate st.current d2) k = some v := by
        rw [alookup_aupdate_nodup _ _ k hnd2, hv2]
        rfl
      have hcore := settings_nonregistry_lookup
        { st with current := aupdate st.current d2 } k v dbStore hu hstdef hcur
        (nodup_akeys_aupdate _ _ hcurnd)
      exact ⟨hcur, hcore.1, hcore.2.1, hcore.2.2⟩
  · intro st1 h1
    unfold setSettings at h1
    cases hvd : validateDict cloud d false with
    | error e =>
      rw [hvd] at h1
      exact absurd (congrArg Prod.fst h1) (by simp)
    | ok d2 =>
      rw [hvd] at h1
      obtain ⟨hkeys2, hlook2⟩ := validateDict_ok_inv hvd
      have hv2 : alookup d2 k = some v := by rw [hlook2 k hk, hv]
      have hnd2 : (akeys d2).Nodup := by rw [hkeys2]; exact hnd
      have hst1 : st1 = { st with current := d2 } :=
        (congrArg Prod.snd h1).symm
      subst hst1
      have hcore := settings_nonregistry_lookup
        { st with current := d2 } k v dbStore hu hstdef hv2 hnd2
      exact ⟨hv2, hcore.1, hcore.2.1, hcore.2.2⟩

/-- C10 witness: the unregistered key `FOO` passes `update` unchecked, is
served by `get`, and survives save's upsert-and-prune. -/
theorem c10_unknown_keys_passthrough_witness :
    (updateSettings false
        { unmodifiable := [], current := [], defaults := defaultsDict }
        [("FOO", PyVal.str "bar")]).1 = .ok () ∧
    settingsGet
        { unmodifiable := [], current := [("FOO", PyVal.str "bar")],
          defaults := defaultsDict } "FOO" = some (PyVal.str "bar") ∧
    alookup (savePersist [("OLD", PyVal.int 7)]
        (asDict
          ({ unmodifiable := [], current := [("FOO", PyVal.str "bar")],
             defaults := defaultsDict } : OrchestState))) "FOO" =
      some (PyVal.str "bar") := by
  have h := c10_unknown_keys_passthrough false []
    { unmodifiable := [], current := [], defaults := defaultsDict }
    [("FOO", PyVal.str "bar")] "FOO" (PyVal.str "bar") [("OLD", PyVal.int 7)]
    rfl (by decide) (by decide) rfl (by decide)
  have h2 := h.2.1
    { unmodifiable := [], current := [("FOO", PyVal.str "bar")],
      defaults := defaultsDict } rfl
  exact ⟨(h.1 (by decide)).1, h2.2.1, h2.2.2.2⟩
